import Mathlib

/-!
Shallow embedding of the transaction-execution core of
src/ovn/utilities/ovn-nbctl.c: the sync/retry loop in main(), the
prerequisite runner run_prerequisites(), and the transaction engine
do_nbctl(), together with the single-line output escaping of the output
dispatcher.  External collaborators (ovsdb IDL transactions, the symbol
table type, dynamic strings) are modelled at their interface.
-/

/-- Transaction commit outcomes, mirroring enum ovsdb_idl_txn_status
(TXN_UNCOMMITTED, TXN_INCOMPLETE, TXN_ABORTED, TXN_UNCHANGED, TXN_SUCCESS,
TXN_TRY_AGAIN, TXN_ERROR, TXN_NOT_LOCKED). -/
inductive TxnStatus
  | uncommitted
  | incomplete
  | aborted
  | unchanged
  | success
  | tryAgain
  | error
  | notLocked
deriving DecidableEq, Repr

/-- Modelled from the spec: struct ovsdb_symbol of the IDL library (not in
src/) as used by do_nbctl: a created flag and strong/weak reference flags. -/
structure OvsdbSymbol where
  created : Bool
  strong_ref : Bool
  weak_ref : Bool
deriving DecidableEq, Repr

/-- Modelled from the spec: the symbol table is a map from user-chosen
names to symbols; modelled as an association list in shash iteration
order, names unique. -/
abbrev SymbolTable := List (String × OvsdbSymbol)

/-- A structured table result; rendering details are out of scope, so a
table is represented by the text table_print would produce for it under
the configured style. -/
structure Table where
  content : String
deriving DecidableEq, Repr

/-- table_print(c->table, &table_style): emits the rendered table. -/
def table_print (t : Table) : String := t.content

/-- The transaction handle created by ovsdb_idl_txn_create, with the
dry-run mark, the audit comment and whether ovsdb_idl_txn_abort was
called on it. -/
structure Txn where
  dryRun : Bool
  comment : String
  aborted : Bool
deriving DecidableEq, Repr

/-- Result of one command's mutate phase (ctl_context after the
syntax run callback): accumulated output, optional table, the try_again
flag, and the updated symbol table. -/
structure RunRet where
  output : String
  table : Option Table
  tryAgain : Bool
  symtab : SymbolTable

/-- Context handed to a post-commit (postprocess) callback: the command's
output and table so far, and the attempt's symbol table. -/
structure PostCtx where
  output : String
  table : Option Table
  symtab : SymbolTable

/-- Result of a postprocess or prerequisites callback: the command's
output and table after it returns. -/
structure PostRet where
  output : String
  table : Option Table

/-- Context handed to a prerequisites callback by run_prerequisites:
the transaction and symbol table slots of ctl_context, both passed as
NULL there. -/
structure PrereqCtx where
  txn : Option Txn
  symtab : Option SymbolTable
deriving DecidableEq, Repr

/-- A parsed command of the batch (struct ctl_command): positional
arguments, parsed options, the handler's three optional phase callbacks
from struct ctl_command_syntax, and the per-attempt output buffer and
table result. -/
structure CtlCommand where
  args : List String
  options : List (String × Option String)
  prereq : Option (PrereqCtx → PostRet)
  run : Option (SymbolTable → RunRet)
  post : Option (PostCtx → PostRet)
  output : String
  table : Option Table

/-- The stable part of a parsed command: arguments, options and handler
bindings — everything except the per-attempt output buffer and table. -/
def cmdIface (c : CtlCommand) :=
  (c.args, c.options, c.prereq, c.run, c.post)

/-- ds_init(&c->output); c->table = NULL; — the per-attempt reset of a
command's output buffer and table. -/
def resetCmd (c : CtlCommand) : CtlCommand :=
  { c with output := "", table := none }

/-- Observable engine events of one do_nbctl attempt, in program order. -/
inductive Event
  | txnCreate
  | txnSetDryRun
  | txnAddComment
  | symtabCreate
  | runPhase (idx : Nat)
  | commitCall
  | postPhase (idx : Nat)
  | txnAbort
  | txnDestroy
  | symtabDestroy
  | outputsDestroy
deriving DecidableEq, Repr

/-- Kind of non-fatal warning from the symbol-table consistency check. -/
inductive WarnKind
  | noRef
  | weakOnly
deriving DecidableEq, Repr

/-- Result of the mutate-phase loop of do_nbctl (lines 1188-1199):
the commands with their accumulated outputs/tables, the final symbol
table, whether some command set ctx.try_again (stopping the loop), and
the runPhase events in order. -/
structure RunAllOut where
  cmds : List CtlCommand
  symtab : SymbolTable
  tryAgainFlag : Bool
  events : List Event

/-- The mutate-phase loop: for each command in order, invoke its run
callback if present (ctl_context_init_command gives it the freshly reset
output and the shared symbol table); stop at the first command that sets
ctx.try_again. -/
def runAll (idx : Nat) : List CtlCommand → SymbolTable → RunAllOut
  | [], st => ⟨[], st, false, []⟩
  | c :: cs, st =>
    match c.run with
    | none =>
      let r := runAll (idx + 1) cs st
      ⟨c :: r.cmds, r.symtab, r.tryAgainFlag, r.events⟩
    | some f =>
      let ret := f st
      let c' : CtlCommand := { c with output := ret.output, table := ret.table }
      if ret.tryAgain then ⟨c' :: cs, ret.symtab, true, [Event.runPhase idx]⟩
      else
        let r := runAll (idx + 1) cs ret.symtab
        ⟨c' :: r.cmds, r.symtab, r.tryAgainFlag, Event.runPhase idx :: r.events⟩

/-- The symbol-table consistency check (SHASH_FOR_EACH loop, lines
1202-1220): walk the table in order; at the first symbol whose created
flag is unset, ctl_fatal naming it (warnings already emitted for earlier
symbols are kept, later symbols are not reached); a created symbol with
no strong reference gets one warning, distinguishing no reference at all
from a weak-only reference.  Returns the warnings emitted and the name
passed to ctl_fatal, if any. -/
def checkSymtab : SymbolTable → (List (String × WarnKind) × Option String)
  | [] => ([], none)
  | (n, s) :: rest =>
    if s.created = false then ([], some n)
    else
      let w : List (String × WarnKind) :=
        if s.strong_ref then []
        else if s.weak_ref then [(n, WarnKind.weakOnly)]
        else [(n, WarnKind.noRef)]
      let r := checkSymtab rest
      (w ++ r.1, r.2)

/-- The post-commit loop (lines 1224-1231): for each command with a
postprocess callback, run it on a context bound to the command's current
output/table and the attempt's symbol table. -/
def postAll (st : SymbolTable) (idx : Nat) : List CtlCommand → (List CtlCommand × List Event)
  | [] => ([], [])
  | c :: cs =>
    let r := postAll st (idx + 1) cs
    match c.post with
    | none => (c :: r.1, r.2)
    | some f =>
      let ret := f { output := c.output, table := c.table, symtab := st }
      ({ c with output := ret.output, table := ret.table } :: r.1,
       Event.postPhase idx :: r.2)

/-- Modelled from the spec: ds_chomp from the dynamic-string library (not
in src/) removes a single trailing occurrence of the character, if the
string ends with it. -/
def ds_chomp (s : List Char) (c : Char) : List Char :=
  match s.getLast? with
  | none => s
  | some x => if x = c then s.dropLast else s

/-- The per-character escaping of the --oneline output path (switch at
lines 1275-1286): a newline becomes the two characters backslash n, a
backslash is doubled, every other byte passes through. -/
def escChar (c : Char) : List Char :=
  if c = '\n' then ['\\', 'n']
  else if c = '\\' then ['\\', '\\']
  else [c]

/-- The --oneline rendering of one command's output (lines 1272-1288):
strip one trailing newline, escape every remaining byte, then emit a
single final newline. -/
def onelineEscape (s : String) : List Char :=
  ((ds_chomp s.toList '\n').flatMap escChar) ++ ['\n']

/-- The output dispatcher's policy for one command (lines 1267-1291):
a produced table is printed; otherwise in --oneline mode the escaped
single line is emitted; otherwise the raw accumulated output. -/
def emitBlock (oneline : Bool) (c : CtlCommand) : String :=
  match c.table with
  | some t => table_print t
  | none => if oneline then String.mk (onelineEscape c.output) else c.output

/-- The argument a fatal exit carries (which ctl_fatal call fired, or an
OVS_NOT_REACHED abort). -/
inductive FatalKind
  | symbolNotCreated (name : String)
  | txnAborted
  | txnError (msg : String)
  | notLocked
  | notReached
deriving Repr

/-- How one do_nbctl attempt ends: fatal process termination, return
false for a retry (with the command array as left by the cleanup), or
return true with the dispatched output blocks in order. -/
inductive DoResult
  | fatal (k : FatalKind)
  | retry (cmds : List CtlCommand)
  | ok (blocks : List String)

/-- The inputs of one do_nbctl attempt: the escaped invocation string,
the global --dry-run and --oneline flags, and the outcome
ovsdb_idl_txn_commit_block would report together with its error string
(the session is an external collaborator, so its commit verdict is an
input). -/
structure DoInput where
  args : String
  dryRun : Bool
  oneline : Bool
  commitStatus : TxnStatus
  commitError : String

/-- Everything observable about one do_nbctl attempt: whether commit was
invoked and with which verdict, the final transaction handle state, the
symbol-table destruction on the non-fatal exits, the warnings of the
consistency check, the engine events in order, and how the attempt
ended. -/
structure DoOutcome where
  commitOutcome : Option TxnStatus
  txn : Txn
  symtabDestroyed : Bool
  warnings : List (String × WarnKind)
  events : List Event
  result : DoResult

/-- The events up to and including symbol-table creation: transaction
created, optionally marked dry-run, comment attached, fresh symbol
table. -/
def baseEvents (dryRun : Bool) : List Event :=
  [Event.txnCreate] ++ (if dryRun then [Event.txnSetDryRun] else [])
    ++ [Event.txnAddComment, Event.symtabCreate]

/-- One attempt of the transaction engine, do_nbctl (lines 1163-1320):
create the transaction (marking dry-run first if configured), attach the
comment, create a fresh symbol table, reset every command's output and
table, run the mutate phases in order stopping at the first try_again,
then run the consistency check; if it passes, commit and classify the
outcome: unchanged/success run the post-commit phases and dispatch
output in order; try-again aborts and destroys the attempt's state and
returns false; error/aborted/not-locked are ctl_fatal and
uncommitted/incomplete hit OVS_NOT_REACHED. -/
def do_nbctl (inp : DoInput) (commands : List CtlCommand) : DoOutcome :=
  let txn0 : Txn := { dryRun := inp.dryRun, comment := "ovs-nbctl: " ++ inp.args,
                      aborted := false }
  let base := baseEvents inp.dryRun
  let r := runAll 0 (commands.map resetCmd) []
  if r.tryAgainFlag then
    { commitOutcome := none
      txn := { txn0 with aborted := true }
      symtabDestroyed := true
      warnings := []
      events := base ++ r.events
        ++ [Event.txnAbort, Event.txnDestroy, Event.symtabDestroy, Event.outputsDestroy]
      result := DoResult.retry (r.cmds.map resetCmd) }
  else
    let chk := checkSymtab r.symtab
    match chk.2 with
    | some n =>
      { commitOutcome := none
        txn := txn0
        symtabDestroyed := false
        warnings := chk.1
        events := base ++ r.events
        result := DoResult.fatal (FatalKind.symbolNotCreated n) }
    | none =>
      match inp.commitStatus with
      | TxnStatus.unchanged =>
        let pp := postAll r.symtab 0 r.cmds
        { commitOutcome := some TxnStatus.unchanged
          txn := txn0
          symtabDestroyed := true
          warnings := chk.1
          events := base ++ r.events ++ [Event.commitCall] ++ pp.2
            ++ [Event.symtabDestroy, Event.outputsDestroy, Event.txnDestroy]
          result := DoResult.ok (pp.1.map (emitBlock inp.oneline)) }
      | TxnStatus.success =>
        let pp := postAll r.symtab 0 r.cmds
        { commitOutcome := some TxnStatus.success
          txn := txn0
          symtabDestroyed := true
          warnings := chk.1
          events := base ++ r.events ++ [Event.commitCall] ++ pp.2
            ++ [Event.symtabDestroy, Event.outputsDestroy, Event.txnDestroy]
          result := DoResult.ok (pp.1.map (emitBlock inp.oneline)) }
      | TxnStatus.tryAgain =>
        { commitOutcome := some TxnStatus.tryAgain
          txn := { txn0 with aborted := true }
          symtabDestroyed := true
          warnings := chk.1
          events := base ++ r.events
            ++ [Event.commitCall, Event.txnAbort, Event.txnDestroy,
                Event.symtabDestroy, Event.outputsDestroy]
          result := DoResult.retry (r.cmds.map resetCmd) }
      | TxnStatus.error =>
        { commitOutcome := some TxnStatus.error
          txn := txn0
          symtabDestroyed := false
          warnings := chk.1
          events := base ++ r.events ++ [Event.commitCall]
          result := DoResult.fatal (FatalKind.txnError inp.commitError) }
      | TxnStatus.aborted =>
        { commitOutcome := some TxnStatus.aborted
          txn := txn0
          symtabDestroyed := false
          warnings := chk.1
          events := base ++ r.events ++ [Event.commitCall]
          result := DoResult.fatal FatalKind.txnAborted }
      | TxnStatus.notLocked =>
        { commitOutcome := some TxnStatus.notLocked
          txn := txn0
          symtabDestroyed := false
          warnings := chk.1
          events := base ++ r.events ++ [Event.commitCall]
          result := DoResult.fatal FatalKind.notLocked }
      | TxnStatus.uncommitted =>
        { commitOutcome := some TxnStatus.uncommitted
          txn := txn0
          symtabDestroyed := false
          warnings := chk.1
          events := base ++ r.events ++ [Event.commitCall]
          result := DoResult.fatal FatalKind.notReached }
      | TxnStatus.incomplete =>
        { commitOutcome := some TxnStatus.incomplete
          txn := txn0
          symtabDestroyed := false
          warnings := chk.1
          events := base ++ r.events ++ [Event.commitCall]
          result := DoResult.fatal FatalKind.notReached }

/-- Modelled from the spec: whether a commit with the given verdict on
the given transaction persists a change in the store — the session
contract says a dry-run transaction reports what would change without
persisting it, and only a successful commit changes the store. -/
def persistsChange (t : Txn) (s : TxnStatus) : Bool :=
  (s = TxnStatus.success : Bool) && !t.dryRun

/-- What the sync/retry loop observes in one iteration of the for(;;) in
main (lines 118-138): whether the session is alive after
ovsdb_idl_run, the sequence number read at line 126, what do_nbctl
would return if invoked, and the sequence number read at line 134 after
the attempt (commit_block pumps the session, so it may differ). -/
structure IterObs where
  alive : Bool
  seqno : Nat
  attemptResult : Bool
  seqnoAfter : Nat
deriving DecidableEq, Repr

/-- How one iteration of the sync/retry loop ends. -/
inductive StepAction
  | fatalDead
  | exitZero
  | blockThenLoop
  | loopNoBlock
deriving DecidableEq, Repr

/-- Result of one iteration of the sync/retry loop: whether do_nbctl was
invoked, the value of the seqno variable afterwards, and the control
action taken. -/
structure StepOut where
  attempted : Bool
  newLastSeen : Nat
  action : StepAction
deriving DecidableEq, Repr

/-- One iteration of the sync/retry loop in main (lines 118-138): fail
fatally if the session died; if the observed sequence number differs
from the last one attempted, record it and invoke do_nbctl, exiting 0 on
success; finally block (ovsdb_idl_wait + poll_block) exactly when the
sequence number re-read at line 134 equals the recorded one.  When no
attempt was made nothing pumped the session between the two reads, so
the re-read yields the same number and the loop blocks. -/
def mainStep (lastSeen : Nat) (o : IterObs) : StepOut :=
  if o.alive = false then ⟨false, lastSeen, StepAction.fatalDead⟩
  else if o.seqno ≠ lastSeen then
    if o.attemptResult then ⟨true, o.seqno, StepAction.exitZero⟩
    else if o.seqno = o.seqnoAfter then ⟨true, o.seqno, StepAction.blockThenLoop⟩
    else ⟨true, o.seqno, StepAction.loopNoBlock⟩
  else ⟨false, lastSeen, StepAction.blockThenLoop⟩

/-- Result of run_prerequisites (lines 1140-1161): the contexts passed
to each prerequisites callback (with the command's index), the index of
the first failed ovs_assert if any, and the commands afterwards. -/
structure PrereqOut where
  calls : List (Nat × PrereqCtx)
  assertFailed : Option Nat
  cmds : List CtlCommand

/-- run_prerequisites: for every command whose handler declares a
prerequisites callback, reset its output and table and invoke the
callback once with a context whose transaction and symbol table are
null; then assert that it produced no output and no table (process
aborts otherwise, stopping the loop). -/
def run_prerequisites (idx : Nat) : List CtlCommand → PrereqOut
  | [] => ⟨[], none, []⟩
  | c :: cs =>
    match c.prereq with
    | none =>
      let r := run_prerequisites (idx + 1) cs
      ⟨r.calls, r.assertFailed, c :: r.cmds⟩
    | some f =>
      let ctx : PrereqCtx := { txn := none, symtab := none }
      let ret := f ctx
      let c' : CtlCommand := { c with output := ret.output, table := ret.table }
      if ret.output = "" ∧ ret.table = none then
        let r := run_prerequisites (idx + 1) cs
        ⟨(idx, ctx) :: r.calls, r.assertFailed, c' :: r.cmds⟩
      else
        ⟨[(idx, ctx)], some idx, c' :: cs⟩

/-- The indices of the commands whose handler declares a prerequisites
callback, counting from idx. -/
def declaredIdx (idx : Nat) : List CtlCommand → List Nat
  | [] => []
  | c :: cs =>
    if (c.prereq).isSome then idx :: declaredIdx (idx + 1) cs
    else declaredIdx (idx + 1) cs

/-- The warning the consistency check emits for one symbol, if any. -/
def warnOf (p : String × OvsdbSymbol) : Option (String × WarnKind) :=
  if p.2.strong_ref then none
  else if p.2.weak_ref then some (p.1, WarnKind.weakOnly)
  else some (p.1, WarnKind.noRef)

/-- Scanning an event list left to right, e is met before any event
satisfying p (or no event satisfies p at all). -/
def comesBefore (e : Event) (p : Event → Bool) : List Event → Bool
  | [] => true
  | x :: xs => if x = e then true else if p x then false else comesBefore e p xs

/-- Whether an event is the invocation of some command's mutate phase. -/
def isRunPhase : Event → Bool
  | Event.runPhase _ => true
  | _ => false

/-- A sample engine input: commit reports success, single-line mode on. -/
def wInp : DoInput :=
  { args := "lswitch-add sw0", dryRun := false, oneline := true,
    commitStatus := TxnStatus.success, commitError := "" }

/-- A sample engine input with dry-run configured. -/
def wInpDry : DoInput :=
  { args := "lswitch-add sw0", dryRun := true, oneline := false,
    commitStatus := TxnStatus.success, commitError := "" }

/-- A sample mutate phase creating symbol x with a strong reference. -/
def wRunGood (st : SymbolTable) : RunRet :=
  { output := "ok\n", table := none, tryAgain := false,
    symtab := st ++
      [("x", { created := true, strong_ref := true, weak_ref := false })] }

/-- A sample mutate phase referencing symbol y that nothing creates. -/
def wRunBad (st : SymbolTable) : RunRet :=
  { output := "", table := none, tryAgain := false,
    symtab := st ++
      [("y", { created := false, strong_ref := true, weak_ref := false })] }

/-- A sample mutate phase that requests try-again. -/
def wRunTry (st : SymbolTable) : RunRet :=
  { output := "", table := none, tryAgain := true, symtab := st }

/-- A sample mutate phase creating a strongly referenced, an unreferenced
and a weakly referenced symbol. -/
def wRunSyms (st : SymbolTable) : RunRet :=
  { output := "", table := none, tryAgain := false,
    symtab := st ++
      [("a", { created := true, strong_ref := true, weak_ref := false }),
       ("b", { created := true, strong_ref := false, weak_ref := false }),
       ("c", { created := true, strong_ref := false, weak_ref := true })] }

/-- A sample postprocess phase appending a line to the output. -/
def wPost (ctx : PostCtx) : PostRet :=
  { output := ctx.output ++ "post\n", table := ctx.table }

/-- A sample read phase producing no output and requesting no table. -/
def wPrereq (_ctx : PrereqCtx) : PostRet :=
  { output := "", table := none }

/-- A sample command with all three phases declared. -/
def wCmdGood : CtlCommand :=
  { args := ["lswitch-add", "sw0"], options := [("may-exist", none)],
    prereq := some wPrereq, run := some wRunGood, post := some wPost,
    output := "", table := none }

/-- A sample command whose mutate phase leaves a dangling reference. -/
def wCmdBad : CtlCommand :=
  { args := ["lport-add", "sw0", "p1"], options := [],
    prereq := none, run := some wRunBad, post := none,
    output := "", table := none }

/-- A sample command whose mutate phase requests try-again. -/
def wCmdTry : CtlCommand :=
  { args := ["lswitch-del", "sw0"], options := [],
    prereq := none, run := some wRunTry, post := none,
    output := "", table := none }

/-- A sample command creating the three symbols of wRunSyms. -/
def wCmdSyms : CtlCommand :=
  { args := ["create"], options := [],
    prereq := none, run := some wRunSyms, post := none,
    output := "", table := none }

/-- A sample command declaring no phase at all. -/
def wCmdNone : CtlCommand :=
  { args := ["lswitch-list"], options := [],
    prereq := none, run := none, post := none, output := "", table := none }

/-- A sample loop observation: session alive, version advanced to 1, the
attempt would succeed. -/
def wObs : IterObs :=
  { alive := true, seqno := 1, attemptResult := true, seqnoAfter := 1 }

theorem cmdIface_resetCmd (c : CtlCommand) : cmdIface (resetCmd c) = cmdIface c := rfl

theorem resetCmd_resetCmd (c : CtlCommand) : resetCmd (resetCmd c) = resetCmd c := rfl

theorem map_resetCmd_idem (cs : List CtlCommand) :
    (cs.map resetCmd).map resetCmd = cs.map resetCmd := by
  induction cs with
  | nil => rfl
  | cons c cs ih => simp [List.map_cons, ih, resetCmd_resetCmd]

theorem resetCmd_eq_of_iface {c c' : CtlCommand} (h : cmdIface c = cmdIface c') :
    resetCmd c = resetCmd c' := by
  cases c; cases c'
  simp only [cmdIface, Prod.mk.injEq] at h
  obtain ⟨h1, h2, h3, h4, h5⟩ := h
  simp [resetCmd, h1, h2, h3, h4, h5]

theorem map_resetCmd_eq_of_iface : ∀ {cs cs' : List CtlCommand},
    cs.map cmdIface = cs'.map cmdIface → cs.map resetCmd = cs'.map resetCmd
  | [], [], _ => rfl
  | c :: cs, c' :: cs', h => by
    simp only [List.map_cons, List.cons.injEq] at h ⊢
    exact ⟨resetCmd_eq_of_iface h.1, map_resetCmd_eq_of_iface h.2⟩

theorem runAll_iface (cs : List CtlCommand) : ∀ (idx : Nat) (st : SymbolTable),
    (runAll idx cs st).cmds.map cmdIface = cs.map cmdIface := by
  induction cs with
  | nil => intro idx st; rfl
  | cons c cs ih =>
    intro idx st
    unfold runAll
    cases hr : c.run with
    | none => simp [List.map_cons, ih]
    | some f =>
      by_cases hta : (f st).tryAgain
      · simp [hr, hta, List.map_cons, cmdIface]
      · simp [hr, hta, List.map_cons, ih, cmdIface]

theorem runAll_events_runPhase (cs : List CtlCommand) : ∀ (idx : Nat) (st : SymbolTable),
    ∀ e ∈ (runAll idx cs st).events, ∃ j, e = Event.runPhase j := by
  induction cs with
  | nil => intro idx st e he; simp [runAll] at he
  | cons c cs ih =>
    intro idx st e he
    unfold runAll at he
    cases hr : c.run with
    | none =>
      simp only [hr] at he
      exact ih (idx + 1) st e he
    | some f =>
      by_cases hta : (f st).tryAgain
      · simp [hr, hta] at he
        exact ⟨idx, he⟩
      · simp [hr, hta] at he
        rcases he with he | he
        · exact ⟨idx, he⟩
        · exact ih (idx + 1) (f st).symtab e he

theorem checkSymtab_none_of_all_created : ∀ (st : SymbolTable),
    (∀ p ∈ st, p.2.created = true) → (checkSymtab st).2 = none
  | [], _ => rfl
  | (n, s) :: rest, h => by
    have hs : s.created = true := h (n, s) (by simp)
    unfold checkSymtab
    simp only [hs]
    simp [checkSymtab_none_of_all_created rest (fun p hp => h p (by simp [hp]))]

theorem checkSymtab_all_created_of_none : ∀ (st : SymbolTable),
    (checkSymtab st).2 = none → ∀ p ∈ st, p.2.created = true := by
  intro st
  induction st with
  | nil => intro _ p hp; simp at hp
  | cons q rest ih =>
    obtain ⟨n, s⟩ := q
    intro h p hp
    unfold checkSymtab at h
    by_cases hc : s.created = false
    · simp [hc] at h
    · simp only [hc, if_false] at h
      rcases List.mem_cons.mp hp with rfl | hmem
      · simpa using hc
      · exact ih (by simpa using h) p hmem

theorem checkSymtab_some_mem : ∀ (st : SymbolTable) (n : String),
    (checkSymtab st).2 = some n → ∃ s, (n, s) ∈ st ∧ s.created = false := by
  intro st
  induction st with
  | nil => intro n h; simp [checkSymtab] at h
  | cons q rest ih =>
    obtain ⟨m, s⟩ := q
    intro n h
    unfold checkSymtab at h
    by_cases hc : s.created = false
    · simp [hc] at h
      exact ⟨s, by simp [h], hc⟩
    · simp only [hc, if_false] at h
      obtain ⟨t, htm, htc⟩ := ih n (by simpa using h)
      exact ⟨t, by simp [htm], htc⟩

theorem checkSymtab_warnings : ∀ (st : SymbolTable),
    (∀ p ∈ st, p.2.created = true) → (checkSymtab st).1 = st.filterMap warnOf
  | [], _ => rfl
  | (n, s) :: rest, h => by
    have hs : s.created = true := h (n, s) (by simp)
    have ih := checkSymtab_warnings rest (fun p hp => h p (by simp [hp]))
    unfold checkSymtab
    simp only [hs, List.filterMap_cons]
    by_cases h1 : s.strong_ref
    · simp [h1, warnOf, ih]
    · by_cases h2 : s.weak_ref
      · simp [h1, h2, warnOf, ih]
      · simp [h1, h2, warnOf, ih]

theorem countWarn_not_mem : ∀ (st : SymbolTable) (n : String),
    n ∉ st.map Prod.fst →
    (st.filterMap warnOf).countP (fun w => w.1 == n) = 0 := by
  intro st
  induction st with
  | nil => intro n _; rfl
  | cons q rest ih =>
    obtain ⟨m, s⟩ := q
    intro n hn
    simp only [List.map_cons, List.mem_cons] at hn
    push_neg at hn
    obtain ⟨hmn, hrest⟩ := hn
    simp only [List.filterMap_cons]
    cases hw : warnOf (m, s) with
    | none => exact ih n hrest
    | some w =>
      have hw1 : w.1 = m := by
        unfold warnOf at hw
        by_cases h1 : s.strong_ref
        · simp [h1] at hw
        · by_cases h2 : s.weak_ref
          · simp [h1, h2] at hw; simp [← hw]
          · simp [h1, h2] at hw; simp [← hw]
      rw [List.countP_cons]
      simp only [hw1]
      have : (m == n) = false := by
        simp only [beq_eq_false_iff_ne, ne_eq]
        exact fun hc => hmn hc.symm
      simp [this, ih n hrest]

theorem countWarn_mem : ∀ (st : SymbolTable),
    (st.map Prod.fst).Nodup →
    ∀ (n : String) (s : OvsdbSymbol), (n, s) ∈ st →
    (st.filterMap warnOf).countP (fun w => w.1 == n) =
      (if s.strong_ref then 0 else 1) := by
  intro st
  induction st with
  | nil => intro _ n s hm; simp at hm
  | cons q rest ih =>
    obtain ⟨m, t⟩ := q
    intro hnd n s hmem
    simp only [List.map_cons, List.nodup_cons] at hnd
    obtain ⟨hm_not, hnd_rest⟩ := hnd
    rcases List.mem_cons.mp hmem with heq | hmem_rest
    · obtain ⟨rfl, rfl⟩ := Prod.mk.injEq .. ▸ heq
      have hrest0 : (rest.filterMap warnOf).countP (fun w => w.1 == n) = 0 :=
        countWarn_not_mem rest n hm_not
      simp only [List.filterMap_cons]
      cases hw : warnOf (n, s) with
      | none =>
        have hs : s.strong_ref = true := by
          unfold warnOf at hw
          by_cases h1 : s.strong_ref
          · exact h1
          · by_cases h2 : s.weak_ref <;> simp [h1, h2] at hw
        simp [hrest0, hs]
      | some w =>
        have hw1 : w.1 = n ∧ s.strong_ref = false := by
          unfold warnOf at hw
          by_cases h1 : s.strong_ref
          · simp [h1] at hw
          · by_cases h2 : s.weak_ref
            · simp [h1, h2] at hw
              exact ⟨by simp [← hw], by simpa using h1⟩
            · simp [h1, h2] at hw
              exact ⟨by simp [← hw], by simpa using h1⟩
        rw [List.countP_cons]
        simp [hw1.1, hw1.2, hrest0]
    · have hmn : m ≠ n := by
        intro hc
        exact hm_not (hc ▸ List.mem_map_of_mem Prod.fst hmem_rest)
      simp only [List.filterMap_cons]
      cases hw : warnOf (m, t) with
      | none => exact ih hnd_rest n s hmem_rest
      | some w =>
        have hw1 : w.1 = m := by
          unfold warnOf at hw
          by_cases h1 : t.strong_ref
          · simp [h1] at hw
          · by_cases h2 : t.weak_ref
            · simp [h1, h2] at hw; simp [← hw]
            · simp [h1, h2] at hw; simp [← hw]
        rw [List.countP_cons]
        simp only [hw1]
        have : (m == n) = false := by simpa using hmn
        simp [this, ih hnd_rest n s hmem_rest]

theorem postAll_iface (st : SymbolTable) (cs : List CtlCommand) : ∀ (idx : Nat),
    (postAll st idx cs).1.map cmdIface = cs.map cmdIface := by
  induction cs with
  | nil => intro idx; rfl
  | cons c cs ih =>
    intro idx
    unfold postAll
    cases hp : c.post with
    | none => simp [hp, List.map_cons, ih]
    | some f => simp [hp, List.map_cons, ih, cmdIface]

theorem postAll_events_mem (st : SymbolTable) : ∀ (cs : List CtlCommand) (idx i : Nat)
    (h : i < cs.length), ((cs.get ⟨i, h⟩).post).isSome = true →
    Event.postPhase (idx + i) ∈ (postAll st idx cs).2 := by
  intro cs
  induction cs with
  | nil => intro idx i h; simp at h
  | cons c cs ih =>
    intro idx i h hsome
    cases i with
    | zero =>
      simp only [List.get] at hsome
      unfold postAll
      cases hp : c.post with
      | none => rw [hp] at hsome; simp at hsome
      | some f => simp [hp]
    | succ j =>
      simp only [List.get] at hsome
      have hj : j < cs.length := Nat.lt_of_succ_lt_succ h
      have := ih (idx + 1) j hj hsome
      unfold postAll
      cases hp : c.post with
      | none =>
        simp only [hp]
        simpa [Nat.add_assoc, Nat.add_comm 1 j] using this
      | some f =>
        simp only [hp, List.mem_cons]
        right
        simpa [Nat.add_assoc, Nat.add_comm 1 j] using this

theorem do_nbctl_reset (inp : DoInput) (cs : List CtlCommand) :
    do_nbctl inp (cs.map resetCmd) = do_nbctl inp cs := by
  unfold do_nbctl
  rw [map_resetCmd_idem]

theorem do_nbctl_iface (inp : DoInput) {cs cs' : List CtlCommand}
    (h : cs.map cmdIface = cs'.map cmdIface) :
    do_nbctl inp cs = do_nbctl inp cs' := by
  unfold do_nbctl
  rw [map_resetCmd_eq_of_iface h]

theorem flatMap_replicate (n : Nat) (a : Char) (f : Char → List Char) :
    (List.replicate n a).flatMap f = (List.replicate n (f a)).flatten := by
  induction n with
  | zero => rfl
  | succ m ih => simp [List.replicate_succ, ih]

/-- Claim C4: in single-line mode, a command whose accumulated output is the
byte sequence a, newline, b, backslash, c, newline and which produced no
table is dispatched as exactly the byte sequence a, backslash, n, b,
backslash, backslash, c, newline: the trailing newline is stripped, the
inner newline becomes the two characters backslash n, the backslash is
doubled, other bytes pass through, and one final newline is appended. -/
theorem claim_C4 :
    emitBlock true
      { args := [], options := [], prereq := none, run := none, post := none,
        output := String.mk ['a', '\n', 'b', '\\', 'c', '\n'], table := none }
      = String.mk ['a', '\\', 'n', 'b', '\\', '\\', 'c', '\n'] := by
  rfl

/-- Claim C10: in single-line mode the dispatcher strips at most one
trailing newline before escaping: a command with empty output and no table
still emits exactly one newline, and an output ending in k ≥ 2 newlines has
its first k-1 trailing newlines emitted as escaped backslash-n pairs
followed by one literal final newline. -/
theorem claim_C10 :
    (∀ c : CtlCommand, c.output = "" → c.table = none → emitBlock true c = "\n") ∧
    (∀ (s : List Char) (k : Nat), 2 ≤ k →
      onelineEscape (String.mk (s ++ List.replicate k '\n')) =
        (s.flatMap escChar) ++ (List.replicate (k - 1) ['\\', 'n']).flatten ++ ['\n']) := by
  constructor
  · intro c h1 h2
    simp [emitBlock, h2, onelineEscape, h1, ds_chomp]
  · intro s k hk
    obtain ⟨m, rfl⟩ : ∃ m, k = m + 2 := ⟨k - 2, by omega⟩
    have hrep : List.replicate (m + 2) '\n' = List.replicate (m + 1) '\n' ++ ['\n'] :=
      List.replicate_succ' (m + 1) '\n'
    have hlist : s ++ List.replicate (m + 2) '\n' =
        (s ++ List.replicate (m + 1) '\n') ++ ['\n'] := by
      rw [hrep, List.append_assoc]
    have htl : (String.mk (s ++ List.replicate (m + 2) '\n')).toList =
        (s ++ List.replicate (m + 1) '\n') ++ ['\n'] := by
      simpa using hlist
    have hchomp : ds_chomp ((s ++ List.replicate (m + 1) '\n') ++ ['\n']) '\n'
        = s ++ List.replicate (m + 1) '\n' := by
      unfold ds_chomp
      rw [List.getLast?_concat]
      simp [List.dropLast_concat]
    have hm : m + 2 - 1 = m + 1 := rfl
    unfold onelineEscape
    rw [htl, hchomp, List.flatMap_append, flatMap_replicate, hm]
    have hesc : escChar '\n' = ['\\', 'n'] := rfl
    rw [hesc, List.append_assoc]

/-- Claim C2: one iteration of the sync/retry loop invokes do_nbctl only
when the observed sequence number differs from the last attempted one, and
then records it; a successful attempt exits with status 0; whenever no
attempt was made, or the attempt failed and the re-read sequence number
equals the recorded one, the loop blocks before iterating; and right after
any iteration, a further iteration that observes the recorded sequence
number never re-attempts. -/
theorem claim_C2 (lastSeen : Nat) (o : IterObs) (ha : o.alive = true) :
    ((mainStep lastSeen o).attempted = true ↔ o.seqno ≠ lastSeen) ∧
    ((mainStep lastSeen o).attempted = true →
      (mainStep lastSeen o).newLastSeen = o.seqno) ∧
    (o.seqno ≠ lastSeen → o.attemptResult = true →
      (mainStep lastSeen o).action = StepAction.exitZero) ∧
    ((mainStep lastSeen o).attempted = false →
      (mainStep lastSeen o).action = StepAction.blockThenLoop) ∧
    ((mainStep lastSeen o).attempted = true → o.attemptResult = false →
      o.seqnoAfter = (mainStep lastSeen o).newLastSeen →
      (mainStep lastSeen o).action = StepAction.blockThenLoop) ∧
    (∀ o2 : IterObs, o2.seqno = (mainStep lastSeen o).newLastSeen →
      (mainStep (mainStep lastSeen o).newLastSeen o2).attempted = false) := by
  have hblock : ∀ (n : Nat) (o2 : IterObs), o2.seqno = n →
      (mainStep n o2).attempted = false := by
    intro n o2 h2
    unfold mainStep
    by_cases ha2 : o2.alive = false
    · simp [ha2]
    · simp [ha2, h2]
  have hstep : mainStep lastSeen o =
      if o.seqno = lastSeen then ⟨false, lastSeen, StepAction.blockThenLoop⟩
      else if o.attemptResult then ⟨true, o.seqno, StepAction.exitZero⟩
      else if o.seqno = o.seqnoAfter then ⟨true, o.seqno, StepAction.blockThenLoop⟩
      else ⟨true, o.seqno, StepAction.loopNoBlock⟩ := by
    unfold mainStep
    rw [if_neg (by simp [ha])]
    by_cases h1 : o.seqno = lastSeen
    · rw [if_neg (by simpa using h1), if_pos h1]
    · rw [if_pos h1, if_neg h1]
  refine ⟨?_, ?_, ?_, ?_, ?_, fun o2 h => hblock _ o2 h⟩ <;>
    rw [hstep] <;>
    by_cases h1 : o.seqno = lastSeen <;>
    by_cases h2 : o.attemptResult = true <;>
    by_cases h3 : o.seqno = o.seqnoAfter <;>
    simp_all

theorem map_iface_reset (cs : List CtlCommand) :
    (cs.map resetCmd).map cmdIface = cs.map cmdIface := by
  induction cs with
  | nil => rfl
  | cons c cs ih => simp [List.map_cons, ih, cmdIface_resetCmd]

theorem iface_post {c c' : CtlCommand} (h : cmdIface c = cmdIface c') :
    c.post = c'.post := by
  cases c; cases c'
  simp only [cmdIface, Prod.mk.injEq] at h
  exact h.2.2.2.2

theorem iface_map_length {cs cs' : List CtlCommand}
    (h : cs.map cmdIface = cs'.map cmdIface) : cs.length = cs'.length := by
  have h2 := congrArg List.length h
  simpa using h2

theorem iface_map_get {cs cs' : List CtlCommand}
    (h : cs.map cmdIface = cs'.map cmdIface) : ∀ (i : Nat) (h1 : i < cs.length)
    (h2 : i < cs'.length),
    cmdIface (cs.get ⟨i, h1⟩) = cmdIface (cs'.get ⟨i, h2⟩) := by
  induction cs generalizing cs' with
  | nil => intro i h1; simp at h1
  | cons c cs ih =>
    intro i h1 h2
    revert h2
    cases cs' with
    | nil => intro h2; simp at h2
    | cons c' cs'' =>
      intro h2
      simp only [List.map_cons, List.cons.injEq] at h
      cases i with
      | zero => simpa using h.1
      | succ j =>
        simp only [List.get]
        exact ih h.2 j (Nat.lt_of_succ_lt_succ h1) (Nat.lt_of_succ_lt_succ h2)

theorem do_nbctl_tryMid (inp : DoInput) (cmds : List CtlCommand)
    (h : (runAll 0 (cmds.map resetCmd) []).tryAgainFlag = true) :
    do_nbctl inp cmds =
      { commitOutcome := none
        txn := { dryRun := inp.dryRun, comment := "ovs-nbctl: " ++ inp.args,
                 aborted := true }
        symtabDestroyed := true
        warnings := []
        events := baseEvents inp.dryRun ++ (runAll 0 (cmds.map resetCmd) []).events
          ++ [Event.txnAbort, Event.txnDestroy, Event.symtabDestroy,
              Event.outputsDestroy]
        result := DoResult.retry
          ((runAll 0 (cmds.map resetCmd) []).cmds.map resetCmd) } := by
  simp [do_nbctl, h]

theorem do_nbctl_symFatal (inp : DoInput) (cmds : List CtlCommand) (n : String)
    (hta : (runAll 0 (cmds.map resetCmd) []).tryAgainFlag = false)
    (hchk : (checkSymtab (runAll 0 (cmds.map resetCmd) []).symtab).2 = some n) :
    do_nbctl inp cmds =
      { commitOutcome := none
        txn := { dryRun := inp.dryRun, comment := "ovs-nbctl: " ++ inp.args,
                 aborted := false }
        symtabDestroyed := false
        warnings := (checkSymtab (runAll 0 (cmds.map resetCmd) []).symtab).1
        events := baseEvents inp.dryRun ++ (runAll 0 (cmds.map resetCmd) []).events
        result := DoResult.fatal (FatalKind.symbolNotCreated n) } := by
  simp [do_nbctl, hta, hchk]

theorem do_nbctl_commitOk (inp : DoInput) (cmds : List CtlCommand)
    (hta : (runAll 0 (cmds.map resetCmd) []).tryAgainFlag = false)
    (hchk : (checkSymtab (runAll 0 (cmds.map resetCmd) []).symtab).2 = none)
    (hs : inp.commitStatus = TxnStatus.unchanged ∨
          inp.commitStatus = TxnStatus.success) :
    do_nbctl inp cmds =
      { commitOutcome := some inp.commitStatus
        txn := { dryRun := inp.dryRun, comment := "ovs-nbctl: " ++ inp.args,
                 aborted := false }
        symtabDestroyed := true
        warnings := (checkSymtab (runAll 0 (cmds.map resetCmd) []).symtab).1
        events := baseEvents inp.dryRun ++ (runAll 0 (cmds.map resetCmd) []).events
          ++ [Event.commitCall]
          ++ (postAll (runAll 0 (cmds.map resetCmd) []).symtab 0
                (runAll 0 (cmds.map resetCmd) []).cmds).2
          ++ [Event.symtabDestroy, Event.outputsDestroy, Event.txnDestroy]
        result := DoResult.ok
          ((postAll (runAll 0 (cmds.map resetCmd) []).symtab 0
              (runAll 0 (cmds.map resetCmd) []).cmds).1.map
            (emitBlock inp.oneline)) } := by
  rcases hs with hs | hs <;> simp [do_nbctl, hta, hchk, hs]

theorem do_nbctl_afterCheck (inp : DoInput) (cmds : List CtlCommand)
    (hta : (runAll 0 (cmds.map resetCmd) []).tryAgainFlag = false)
    (hchk : (checkSymtab (runAll 0 (cmds.map resetCmd) []).symtab).2 = none) :
    (do_nbctl inp cmds).commitOutcome = some inp.commitStatus ∧
    (do_nbctl inp cmds).warnings =
      (checkSymtab (runAll 0 (cmds.map resetCmd) []).symtab).1 ∧
    Event.commitCall ∈ (do_nbctl inp cmds).events := by
  rcases hst : inp.commitStatus <;> simp [do_nbctl, hta, hchk, hst]

theorem commitCall_not_in_prefix (dr : Bool) (cs : List CtlCommand) (idx : Nat)
    (st : SymbolTable) :
    Event.commitCall ∉ baseEvents dr ++ (runAll idx cs st).events := by
  intro hin
  rcases List.mem_append.mp hin with h | h
  · cases dr <;> simp [baseEvents] at h
  · obtain ⟨j, hj⟩ := runAll_events_runPhase cs idx st Event.commitCall h
    simp at hj

/-- Claim C1: whenever, after the mutate phases of an attempt in which no
command requested try-again, some symbol-table entry was referenced but
never created, do_nbctl terminates fatally with a diagnostic carrying the
name of such a symbol, and the commit operation is never invoked on the
transaction. -/
theorem claim_C1 (inp : DoInput) (commands : List CtlCommand)
    (hta : (runAll 0 (commands.map resetCmd) []).tryAgainFlag = false)
    (hbad : ∃ p ∈ (runAll 0 (commands.map resetCmd) []).symtab,
      p.2.created = false) :
    (do_nbctl inp commands).commitOutcome = none ∧
    Event.commitCall ∉ (do_nbctl inp commands).events ∧
    ∃ n s, (n, s) ∈ (runAll 0 (commands.map resetCmd) []).symtab ∧
      s.created = false ∧
      (do_nbctl inp commands).result =
        DoResult.fatal (FatalKind.symbolNotCreated n) := by
  obtain ⟨p, hp, hpc⟩ := hbad
  have hsome : ∃ n,
      (checkSymtab (runAll 0 (commands.map resetCmd) []).symtab).2 = some n := by
    cases hc : (checkSymtab (runAll 0 (commands.map resetCmd) []).symtab).2 with
    | none =>
      have := checkSymtab_all_created_of_none _ hc p hp
      rw [this] at hpc
      exact absurd hpc (by simp)
    | some n => exact ⟨n, rfl⟩
  obtain ⟨n, hchk⟩ := hsome
  obtain ⟨s, hmem, hsc⟩ := checkSymtab_some_mem _ n hchk
  rw [do_nbctl_symFatal inp commands n hta hchk]
  exact ⟨rfl, commitCall_not_in_prefix inp.dryRun (commands.map resetCmd) 0 [],
    n, s, hmem, hsc, rfl⟩

/-- Claim C5: when every symbol of the attempt was created, a symbol with a
strong reference gets no warning, a created symbol with no reference or
only a weak reference gets exactly one warning, and the check does not
prevent the commit: the attempt still invokes the commit operation. -/
theorem claim_C5 (inp : DoInput) (commands : List CtlCommand)
    (hta : (runAll 0 (commands.map resetCmd) []).tryAgainFlag = false)
    (hall : ∀ p ∈ (runAll 0 (commands.map resetCmd) []).symtab,
      p.2.created = true)
    (hnd : ((runAll 0 (commands.map resetCmd) []).symtab.map Prod.fst).Nodup) :
    (do_nbctl inp commands).commitOutcome = some inp.commitStatus ∧
    Event.commitCall ∈ (do_nbctl inp commands).events ∧
    (∀ n s, (n, s) ∈ (runAll 0 (commands.map resetCmd) []).symtab →
      s.strong_ref = true →
      ((do_nbctl inp commands).warnings.countP (fun w => w.1 == n)) = 0) ∧
    (∀ n s, (n, s) ∈ (runAll 0 (commands.map resetCmd) []).symtab →
      s.strong_ref = false →
      ((do_nbctl inp commands).warnings.countP (fun w => w.1 == n)) = 1) := by
  have hchk : (checkSymtab (runAll 0 (commands.map resetCmd) []).symtab).2 = none :=
    checkSymtab_none_of_all_created _ hall
  obtain ⟨hco, hw, hcc⟩ := do_nbctl_afterCheck inp commands hta hchk
  have hw2 : (do_nbctl inp commands).warnings =
      (runAll 0 (commands.map resetCmd) []).symtab.filterMap warnOf := by
    rw [hw, checkSymtab_warnings _ hall]
  refine ⟨hco, hcc, ?_, ?_⟩
  · intro n s hmem hsr
    rw [hw2]
    have := countWarn_mem _ hnd n s hmem
    simpa [hsr] using this
  · intro n s hmem hsr
    rw [hw2]
    have := countWarn_mem _ hnd n s hmem
    simpa [hsr] using this

theorem run_prerequisites_spec : ∀ (cmds : List CtlCommand),
    (∀ c ∈ cmds, ∀ f, c.prereq = some f →
      (f { txn := none, symtab := none }).output = "" ∧
      (f { txn := none, symtab := none }).table = none) →
    ∀ idx : Nat,
    (run_prerequisites idx cmds).assertFailed = none ∧
    (run_prerequisites idx cmds).calls.map Prod.fst = declaredIdx idx cmds ∧
    ∀ p ∈ (run_prerequisites idx cmds).calls,
      p.2.txn = none ∧ p.2.symtab = none := by
  intro cmds
  induction cmds with
  | nil => intro _ idx; exact ⟨rfl, rfl, by simp [run_prerequisites]⟩
  | cons c cs ih =>
    intro hc idx
    have ihall := ih (fun c' h' f hf => hc c' (List.mem_cons_of_mem c h') f hf)
      (idx + 1)
    unfold run_prerequisites declaredIdx
    cases hp : c.prereq with
    | none =>
      simp only [hp, Option.isSome_none, Bool.false_eq_true, if_false]
      exact ihall
    | some f =>
      have hcf := hc c (List.mem_cons_self c cs) f hp
      simp only [hp, Option.isSome_some, if_true]
      rw [if_pos ⟨hcf.1, hcf.2⟩]
      refine ⟨ihall.1, ?_, ?_⟩
      · simp [ihall.2.1]
      · intro p hpmem
        rcases List.mem_cons.mp hpmem with rfl | hmem
        · exact ⟨rfl, rfl⟩
        · exact ihall.2.2 p hmem

/-- Claim C6: run_prerequisites executes the read-phase exactly once for
every command whose handler declares one, with a context whose transaction
and symbol table are both null, and under the read-phase contract (no
output produced, no table requested) the assertions following each call
never fail. -/
theorem claim_C6 (cmds : List CtlCommand)
    (hc : ∀ c ∈ cmds, ∀ f, c.prereq = some f →
      (f { txn := none, symtab := none }).output = "" ∧
      (f { txn := none, symtab := none }).table = none) :
    (run_prerequisites 0 cmds).assertFailed = none ∧
    (run_prerequisites 0 cmds).calls.map Prod.fst = declaredIdx 0 cmds ∧
    ∀ p ∈ (run_prerequisites 0 cmds).calls,
      p.2.txn = none ∧ p.2.symtab = none :=
  run_prerequisites_spec cmds hc 0

/-- Claim C9: after a successful attempt the dispatcher emits exactly one
block per command, in original input order, each block given by the
dispatch policy (table if produced, else the escaped single line in
single-line mode, else the raw text); and the result of an attempt never
depends on output or tables carried over from a discarded attempt, since
every attempt resets them first. -/
theorem claim_C9 (inp : DoInput) (commands : List CtlCommand)
    (hta : (runAll 0 (commands.map resetCmd) []).tryAgainFlag = false)
    (hchk : (checkSymtab (runAll 0 (commands.map resetCmd) []).symtab).2 = none)
    (hs : inp.commitStatus = TxnStatus.unchanged ∨
          inp.commitStatus = TxnStatus.success) :
    (∃ fin : List CtlCommand,
      (do_nbctl inp commands).result =
        DoResult.ok (fin.map (emitBlock inp.oneline)) ∧
      fin.map cmdIface = commands.map cmdIface ∧
      fin.length = commands.length) ∧
    do_nbctl inp (commands.map resetCmd) = do_nbctl inp commands := by
  have hiface : (postAll (runAll 0 (commands.map resetCmd) []).symtab 0
      (runAll 0 (commands.map resetCmd) []).cmds).1.map cmdIface =
      commands.map cmdIface := by
    rw [postAll_iface, runAll_iface, map_iface_reset]
  refine ⟨⟨(postAll (runAll 0 (commands.map resetCmd) []).symtab 0
      (runAll 0 (commands.map resetCmd) []).cmds).1, ?_, hiface,
      iface_map_length hiface⟩, do_nbctl_reset inp commands⟩
  rw [do_nbctl_commitOk inp commands hta hchk hs]

theorem do_nbctl_txn_dryRun (inp : DoInput) (cmds : List CtlCommand) :
    (do_nbctl inp cmds).txn.dryRun = inp.dryRun := by
  cases hf : (runAll 0 (cmds.map resetCmd) []).tryAgainFlag with
  | false =>
    cases hc : (checkSymtab (runAll 0 (cmds.map resetCmd) []).symtab).2 with
    | none => rcases hst : inp.commitStatus <;> simp [do_nbctl, hf, hc, hst]
    | some n => simp [do_nbctl, hf, hc]
  | true => simp [do_nbctl, hf]

theorem do_nbctl_dryRun_proj (inp : DoInput) (cmds : List CtlCommand) :
    (do_nbctl { inp with dryRun := false } cmds).result =
      (do_nbctl inp cmds).result ∧
    (do_nbctl { inp with dryRun := false } cmds).commitOutcome =
      (do_nbctl inp cmds).commitOutcome ∧
    (do_nbctl { inp with dryRun := false } cmds).warnings =
      (do_nbctl inp cmds).warnings := by
  cases hf : (runAll 0 (cmds.map resetCmd) []).tryAgainFlag with
  | false =>
    cases hc : (checkSymtab (runAll 0 (cmds.map resetCmd) []).symtab).2 with
    | none => rcases hst : inp.commitStatus <;> simp [do_nbctl, hf, hc, hst]
    | some n => simp [do_nbctl, hf, hc]
  | true => simp [do_nbctl, hf]

theorem setDryRun_before_mutate (inp : DoInput) (cmds : List CtlCommand)
    (hd : inp.dryRun = true) :
    comesBefore Event.txnSetDryRun isRunPhase (do_nbctl inp cmds).events
      = true := by
  cases hf : (runAll 0 (cmds.map resetCmd) []).tryAgainFlag with
  | false =>
    cases hc : (checkSymtab (runAll 0 (cmds.map resetCmd) []).symtab).2 with
    | none =>
      rcases hst : inp.commitStatus <;>
        simp [do_nbctl, hf, hc, hst, hd, baseEvents, comesBefore, isRunPhase]
    | some n => simp [do_nbctl, hf, hc, hd, baseEvents, comesBefore, isRunPhase]
  | true => simp [do_nbctl, hf, hd, baseEvents, comesBefore, isRunPhase]

/-- Claim C8: with dry-run configured, the transaction is marked dry-run
before any mutate phase runs; an attempt whose commit classifies as
success or unchanged produces a true return with output blocks, all
observable results (result, commit outcome, warnings) equal those of the
identical non-dry-run attempt, and no change is persisted. -/
theorem claim_C8 (inp : DoInput) (commands : List CtlCommand)
    (hd : inp.dryRun = true)
    (hta : (runAll 0 (commands.map resetCmd) []).tryAgainFlag = false)
    (hchk : (checkSymtab (runAll 0 (commands.map resetCmd) []).symtab).2 = none)
    (hs : inp.commitStatus = TxnStatus.unchanged ∨
          inp.commitStatus = TxnStatus.success) :
    comesBefore Event.txnSetDryRun isRunPhase (do_nbctl inp commands).events
      = true ∧
    (do_nbctl inp commands).txn.dryRun = true ∧
    (∃ blocks, (do_nbctl inp commands).result = DoResult.ok blocks) ∧
    (do_nbctl inp commands).result =
      (do_nbctl { inp with dryRun := false } commands).result ∧
    (do_nbctl inp commands).commitOutcome =
      (do_nbctl { inp with dryRun := false } commands).commitOutcome ∧
    (do_nbctl inp commands).warnings =
      (do_nbctl { inp with dryRun := false } commands).warnings ∧
    persistsChange (do_nbctl inp commands).txn inp.commitStatus = false := by
  obtain ⟨p1, p2, p3⟩ := do_nbctl_dryRun_proj inp commands
  refine ⟨setDryRun_before_mutate inp commands hd, ?_, ?_, p1.symm, p2.symm,
    p3.symm, ?_⟩
  · rw [do_nbctl_txn_dryRun]; exact hd
  · exact ⟨_, by rw [do_nbctl_commitOk inp commands hta hchk hs]⟩
  · simp [persistsChange, do_nbctl_txn_dryRun, hd]

theorem retry_payload (inp : DoInput) (commands : List CtlCommand) :
    (∀ c ∈ (runAll 0 (commands.map resetCmd) []).cmds.map resetCmd,
      c.output = "" ∧ c.table = none) ∧
    ((runAll 0 (commands.map resetCmd) []).cmds.map resetCmd).map cmdIface =
      commands.map cmdIface ∧
    do_nbctl inp ((runAll 0 (commands.map resetCmd) []).cmds.map resetCmd) =
      do_nbctl inp commands := by
  have hiface : ((runAll 0 (commands.map resetCmd) []).cmds.map resetCmd).map
      cmdIface = commands.map cmdIface := by
    rw [map_iface_reset, runAll_iface, map_iface_reset]
  refine ⟨?_, hiface, do_nbctl_iface inp hiface⟩
  intro c hc
  obtain ⟨c0, _, rfl⟩ := List.mem_map.mp hc
  exact ⟨rfl, rfl⟩

/-- Claim C3: every attempt that ends in try-again (mid-batch flag or
commit verdict) aborts and destroys the transaction, destroys the symbol
table and each command's output and table, and returns false with no
successful commit; the surviving command state (arguments, options,
handler bindings) is identical, so the next attempt behaves exactly as an
attempt on the original batch. -/
theorem claim_C3 (inp : DoInput) (commands : List CtlCommand)
    (cs : List CtlCommand)
    (hr : (do_nbctl inp commands).result = DoResult.retry cs) :
    (do_nbctl inp commands).txn.aborted = true ∧
    Event.txnAbort ∈ (do_nbctl inp commands).events ∧
    (do_nbctl inp commands).symtabDestroyed = true ∧
    (∀ c ∈ cs, c.output = "" ∧ c.table = none) ∧
    cs.map cmdIface = commands.map cmdIface ∧
    (do_nbctl inp commands).commitOutcome ≠ some TxnStatus.success ∧
    (do_nbctl inp commands).commitOutcome ≠ some TxnStatus.unchanged ∧
    do_nbctl inp cs = do_nbctl inp commands := by
  obtain ⟨hout, hiface, hnext⟩ := retry_payload inp commands
  cases hf : (runAll 0 (commands.map resetCmd) []).tryAgainFlag with
  | true =>
    have heq := do_nbctl_tryMid inp commands hf
    rw [heq] at hr
    simp only [DoResult.retry.injEq] at hr
    subst hr
    refine ⟨?_, ?_, ?_, hout, hiface, ?_, ?_, hnext⟩
    · rw [heq]
    · rw [heq]; simp
    · rw [heq]
    · rw [heq]; simp
    · rw [heq]; simp
  | false =>
    cases hc : (checkSymtab (runAll 0 (commands.map resetCmd) []).symtab).2 with
    | some n =>
      rw [do_nbctl_symFatal inp commands n hf hc] at hr
      simp at hr
    | none =>
      rcases hst : inp.commitStatus
      case tryAgain =>
        have heq : do_nbctl inp commands =
          { commitOutcome := some TxnStatus.tryAgain
            txn := { dryRun := inp.dryRun, comment := "ovs-nbctl: " ++ inp.args,
                     aborted := true }
            symtabDestroyed := true
            warnings := (checkSymtab
              (runAll 0 (commands.map resetCmd) []).symtab).1
            events := baseEvents inp.dryRun
              ++ (runAll 0 (commands.map resetCmd) []).events
              ++ [Event.commitCall, Event.txnAbort, Event.txnDestroy,
                  Event.symtabDestroy, Event.outputsDestroy]
            result := DoResult.retry
              ((runAll 0 (commands.map resetCmd) []).cmds.map resetCmd) } := by
          simp [do_nbctl, hf, hc, hst]
        rw [heq] at hr
        simp only [DoResult.retry.injEq] at hr
        subst hr
        refine ⟨?_, ?_, ?_, hout, hiface, ?_, ?_, hnext⟩
        · rw [heq]
        · rw [heq]; simp
        · rw [heq]
        · rw [heq]; simp
        · rw [heq]; simp
      all_goals simp [do_nbctl, hf, hc, hst] at hr

/-- Claim C7: the commit outcome classification of do_nbctl: unchanged and
success are exactly the outcomes that run the post-commit phases and reach
output and a true return; try-again (and only try-again) leads to a retry
return; error is fatal carrying the transaction's error string; aborted and
not-locked are fatal invariant violations; uncommitted and incomplete hit
the unreachable-case abort; none of these is ever retried. -/
theorem claim_C7 (inp : DoInput) (commands : List CtlCommand)
    (hta : (runAll 0 (commands.map resetCmd) []).tryAgainFlag = false)
    (hchk : (checkSymtab (runAll 0 (commands.map resetCmd) []).symtab).2
      = none) :
    ((inp.commitStatus = TxnStatus.unchanged ∨
      inp.commitStatus = TxnStatus.success) →
      (∃ blocks, (do_nbctl inp commands).result = DoResult.ok blocks) ∧
      (∀ (i : Nat) (h : i < commands.length),
        ((commands.get ⟨i, h⟩).post).isSome = true →
        Event.postPhase i ∈ (do_nbctl inp commands).events)) ∧
    (¬(inp.commitStatus = TxnStatus.unchanged ∨
       inp.commitStatus = TxnStatus.success) →
      ∀ i : Nat, Event.postPhase i ∉ (do_nbctl inp commands).events) ∧
    (∀ blocks, (do_nbctl inp commands).result = DoResult.ok blocks →
      inp.commitStatus = TxnStatus.unchanged ∨
      inp.commitStatus = TxnStatus.success) ∧
    (inp.commitStatus = TxnStatus.tryAgain →
      ∃ cs, (do_nbctl inp commands).result = DoResult.retry cs) ∧
    (∀ cs, (do_nbctl inp commands).result = DoResult.retry cs →
      inp.commitStatus = TxnStatus.tryAgain) ∧
    (inp.commitStatus = TxnStatus.error →
      (do_nbctl inp commands).result =
        DoResult.fatal (FatalKind.txnError inp.commitError)) ∧
    (inp.commitStatus = TxnStatus.aborted →
      (do_nbctl inp commands).result = DoResult.fatal FatalKind.txnAborted) ∧
    (inp.commitStatus = TxnStatus.notLocked →
      (do_nbctl inp commands).result = DoResult.fatal FatalKind.notLocked) ∧
    ((inp.commitStatus = TxnStatus.uncommitted ∨
      inp.commitStatus = TxnStatus.incomplete) →
      (do_nbctl inp commands).result = DoResult.fatal FatalKind.notReached) := by
  have hiface1 : (runAll 0 (commands.map resetCmd) []).cmds.map cmdIface
      = commands.map cmdIface := by rw [runAll_iface, map_iface_reset]
  have hnp : ∀ i : Nat, Event.postPhase i ∉
      baseEvents inp.dryRun ++ (runAll 0 (commands.map resetCmd) []).events := by
    intro i hin
    rcases List.mem_append.mp hin with h | h
    · cases hdr : inp.dryRun <;> rw [hdr] at h <;> simp [baseEvents] at h
    · obtain ⟨j, hj⟩ := runAll_events_runPhase _ _ _ _ h
      simp at hj
  refine ⟨?_, ?_, ?_, ?_, ?_, ?_, ?_, ?_, ?_⟩
  · intro hs
    constructor
    · exact ⟨(postAll (runAll 0 (commands.map resetCmd) []).symtab 0
        (runAll 0 (commands.map resetCmd) []).cmds).1.map (emitBlock inp.oneline),
        by rw [do_nbctl_commitOk inp commands hta hchk hs]⟩
    · intro i h hsome
      have hlen : (runAll 0 (commands.map resetCmd) []).cmds.length
          = commands.length := iface_map_length hiface1
      have hi' : i < (runAll 0 (commands.map resetCmd) []).cmds.length := by
        omega
      have hpost := iface_post (iface_map_get hiface1 i hi' h)
      have hmem := postAll_events_mem
        (runAll 0 (commands.map resetCmd) []).symtab
        (runAll 0 (commands.map resetCmd) []).cmds 0 i hi'
        (by rw [hpost]; exact hsome)
      rw [do_nbctl_commitOk inp commands hta hchk hs]
      simp only [Nat.zero_add] at hmem
      simp [hmem]
  · intro hns i
    rcases hst : inp.commitStatus
    case unchanged => exact absurd (Or.inl hst) hns
    case success => exact absurd (Or.inr hst) hns
    all_goals
      intro hin
      simp only [do_nbctl, hta, hchk, hst] at hin
      rcases List.mem_append.mp hin with h | h
      · exact hnp i h
      · simp at h
  · intro blocks hok
    rcases hst : inp.commitStatus
    case unchanged => exact Or.inl rfl
    case success => exact Or.inr rfl
    all_goals simp [do_nbctl, hta, hchk, hst] at hok
  · intro hst
    exact ⟨(runAll 0 (commands.map resetCmd) []).cmds.map resetCmd,
      by simp [do_nbctl, hta, hchk, hst]⟩
  · intro cs2 hr
    rcases hst : inp.commitStatus
    case tryAgain => rfl
    all_goals simp [do_nbctl, hta, hchk, hst] at hr
  · intro hst; simp [do_nbctl, hta, hchk, hst]
  · intro hst; simp [do_nbctl, hta, hchk, hst]
  · intro hst; simp [do_nbctl, hta, hchk, hst]
  · rintro (hst | hst) <;> simp [do_nbctl, hta, hchk, hst]

/-- Concrete instantiation of claim C1's hypotheses and conclusion. -/
theorem claim_C1_witness :
    ((runAll 0 ([wCmdBad].map resetCmd) []).tryAgainFlag = false) ∧
    (∃ p ∈ (runAll 0 ([wCmdBad].map resetCmd) []).symtab,
      p.2.created = false) ∧
    ((do_nbctl wInp [wCmdBad]).commitOutcome = none ∧
     Event.commitCall ∉ (do_nbctl wInp [wCmdBad]).events ∧
     ∃ n s, (n, s) ∈ (runAll 0 ([wCmdBad].map resetCmd) []).symtab ∧
       s.created = false ∧
       (do_nbctl wInp [wCmdBad]).result =
         DoResult.fatal (FatalKind.symbolNotCreated n)) :=
  ⟨rfl,
   ⟨("y", { created := false, strong_ref := true, weak_ref := false }),
     by simp [runAll, wCmdBad, wRunBad, resetCmd], rfl⟩,
   claim_C1 wInp [wCmdBad] rfl
     ⟨("y", { created := false, strong_ref := true, weak_ref := false }),
       by simp [runAll, wCmdBad, wRunBad, resetCmd], rfl⟩⟩

/-- Concrete instantiation of claim C2's hypotheses and conclusion. -/
theorem claim_C2_witness :
    wObs.alive = true ∧
    (((mainStep 0 wObs).attempted = true ↔ wObs.seqno ≠ 0) ∧
     ((mainStep 0 wObs).attempted = true →
       (mainStep 0 wObs).newLastSeen = wObs.seqno) ∧
     (wObs.seqno ≠ 0 → wObs.attemptResult = true →
       (mainStep 0 wObs).action = StepAction.exitZero) ∧
     ((mainStep 0 wObs).attempted = false →
       (mainStep 0 wObs).action = StepAction.blockThenLoop) ∧
     ((mainStep 0 wObs).attempted = true → wObs.attemptResult = false →
       wObs.seqnoAfter = (mainStep 0 wObs).newLastSeen →
       (mainStep 0 wObs).action = StepAction.blockThenLoop) ∧
     (∀ o2 : IterObs, o2.seqno = (mainStep 0 wObs).newLastSeen →
       (mainStep (mainStep 0 wObs).newLastSeen o2).attempted = false)) :=
  ⟨rfl, claim_C2 0 wObs rfl⟩

/-- Concrete instantiation of claim C3's hypothesis and conclusion. -/
theorem claim_C3_witness :
    ((do_nbctl wInp [wCmdTry]).result = DoResult.retry [wCmdTry]) ∧
    ((do_nbctl wInp [wCmdTry]).txn.aborted = true ∧
     Event.txnAbort ∈ (do_nbctl wInp [wCmdTry]).events ∧
     (do_nbctl wInp [wCmdTry]).symtabDestroyed = true ∧
     (∀ c ∈ [wCmdTry], c.output = "" ∧ c.table = none) ∧
     [wCmdTry].map cmdIface = [wCmdTry].map cmdIface ∧
     (do_nbctl wInp [wCmdTry]).commitOutcome ≠ some TxnStatus.success ∧
     (do_nbctl wInp [wCmdTry]).commitOutcome ≠ some TxnStatus.unchanged ∧
     do_nbctl wInp [wCmdTry] = do_nbctl wInp [wCmdTry]) :=
  ⟨rfl, claim_C3 wInp [wCmdTry] [wCmdTry] rfl⟩

/-- Concrete instantiation of claim C10's hypotheses and conclusions. -/
theorem claim_C10_witness :
    (wCmdNone.output = "" ∧ wCmdNone.table = none ∧
     emitBlock true wCmdNone = "\n") ∧
    (2 ≤ 2 ∧
     onelineEscape (String.mk (['x'] ++ List.replicate 2 '\n')) =
       (['x'].flatMap escChar) ++ (List.replicate (2 - 1) ['\\', 'n']).flatten
         ++ ['\n']) :=
  ⟨⟨rfl, rfl, claim_C10.1 wCmdNone rfl rfl⟩,
   ⟨by decide, claim_C10.2 ['x'] 2 (by decide)⟩⟩

/-- Concrete instantiation of claim C5's hypotheses and conclusion. -/
theorem claim_C5_witness :
    ((runAll 0 ([wCmdSyms].map resetCmd) []).tryAgainFlag = false) ∧
    (∀ p ∈ (runAll 0 ([wCmdSyms].map resetCmd) []).symtab,
      p.2.created = true) ∧
    (((runAll 0 ([wCmdSyms].map resetCmd) []).symtab.map Prod.fst).Nodup) ∧
    ((do_nbctl wInp [wCmdSyms]).commitOutcome = some wInp.commitStatus ∧
     Event.commitCall ∈ (do_nbctl wInp [wCmdSyms]).events ∧
     (∀ n s, (n, s) ∈ (runAll 0 ([wCmdSyms].map resetCmd) []).symtab →
       s.strong_ref = true →
       ((do_nbctl wInp [wCmdSyms]).warnings.countP (fun w => w.1 == n)) = 0) ∧
     (∀ n s, (n, s) ∈ (runAll 0 ([wCmdSyms].map resetCmd) []).symtab →
       s.strong_ref = false →
       ((do_nbctl wInp [wCmdSyms]).warnings.countP (fun w => w.1 == n)) = 1)) := by
  have h2 : ∀ p ∈ (runAll 0 ([wCmdSyms].map resetCmd) []).symtab,
      p.2.created = true := by decide
  have h3 : ((runAll 0 ([wCmdSyms].map resetCmd) []).symtab.map Prod.fst).Nodup := by
    decide
  exact ⟨rfl, h2, h3, claim_C5 wInp [wCmdSyms] rfl h2 h3⟩

/-- Concrete instantiation of claim C6's hypothesis and conclusion. -/
theorem claim_C6_witness :
    (∀ c ∈ [wCmdGood, wCmdNone], ∀ f, c.prereq = some f →
      (f { txn := none, symtab := none }).output = "" ∧
      (f { txn := none, symtab := none }).table = none) ∧
    ((run_prerequisites 0 [wCmdGood, wCmdNone]).assertFailed = none ∧
     (run_prerequisites 0 [wCmdGood, wCmdNone]).calls.map Prod.fst =
       declaredIdx 0 [wCmdGood, wCmdNone] ∧
     ∀ p ∈ (run_prerequisites 0 [wCmdGood, wCmdNone]).calls,
       p.2.txn = none ∧ p.2.symtab = none) := by
  have hc : ∀ c ∈ [wCmdGood, wCmdNone], ∀ f, c.prereq = some f →
      (f { txn := none, symtab := none }).output = "" ∧
      (f { txn := none, symtab := none }).table = none := by
    intro c hcm f hf
    rcases List.mem_cons.mp hcm with rfl | hcm2
    · have h2 : some wPrereq = some f := hf
      cases Option.some.inj h2
      exact ⟨rfl, rfl⟩
    · rcases List.mem_cons.mp hcm2 with rfl | hcm3
      · simp [wCmdNone] at hf
      · simp at hcm3
  exact ⟨hc, claim_C6 [wCmdGood, wCmdNone] hc⟩

/-- Concrete instantiation of claim C9's hypotheses and conclusion. -/
theorem claim_C9_witness :
    ((runAll 0 ([wCmdGood].map resetCmd) []).tryAgainFlag = false) ∧
    ((checkSymtab (runAll 0 ([wCmdGood].map resetCmd) []).symtab).2 = none) ∧
    (wInp.commitStatus = TxnStatus.unchanged ∨
     wInp.commitStatus = TxnStatus.success) ∧
    ((∃ fin : List CtlCommand,
       (do_nbctl wInp [wCmdGood]).result =
         DoResult.ok (fin.map (emitBlock wInp.oneline)) ∧
       fin.map cmdIface = [wCmdGood].map cmdIface ∧
       fin.length = [wCmdGood].length) ∧
     do_nbctl wInp ([wCmdGood].map resetCmd) = do_nbctl wInp [wCmdGood]) :=
  ⟨rfl, rfl, Or.inr rfl, claim_C9 wInp [wCmdGood] rfl rfl (Or.inr rfl)⟩

/-- Concrete instantiation of claim C8's hypotheses and conclusion. -/
theorem claim_C8_witness :
    (wInpDry.dryRun = true) ∧
    ((runAll 0 ([wCmdGood].map resetCmd) []).tryAgainFlag = false) ∧
    ((checkSymtab (runAll 0 ([wCmdGood].map resetCmd) []).symtab).2 = none) ∧
    (wInpDry.commitStatus = TxnStatus.unchanged ∨
     wInpDry.commitStatus = TxnStatus.success) ∧
    (comesBefore Event.txnSetDryRun isRunPhase
       (do_nbctl wInpDry [wCmdGood]).events = true ∧
     (do_nbctl wInpDry [wCmdGood]).txn.dryRun = true ∧
     (∃ blocks, (do_nbctl wInpDry [wCmdGood]).result = DoResult.ok blocks) ∧
     (do_nbctl wInpDry [wCmdGood]).result =
       (do_nbctl { wInpDry with dryRun := false } [wCmdGood]).result ∧
     (do_nbctl wInpDry [wCmdGood]).commitOutcome =
       (do_nbctl { wInpDry with dryRun := false } [wCmdGood]).commitOutcome ∧
     (do_nbctl wInpDry [wCmdGood]).warnings =
       (do_nbctl { wInpDry with dryRun := false } [wCmdGood]).warnings ∧
     persistsChange (do_nbctl wInpDry [wCmdGood]).txn wInpDry.commitStatus
       = false) :=
  ⟨rfl, rfl, rfl, Or.inr rfl,
   claim_C8 wInpDry [wCmdGood] rfl rfl rfl (Or.inr rfl)⟩

/-- Concrete instantiation of claim C7's hypotheses and conclusion. -/
theorem claim_C7_witness :
    ((runAll 0 ([wCmdGood].map resetCmd) []).tryAgainFlag = false) ∧
    ((checkSymtab (runAll 0 ([wCmdGood].map resetCmd) []).symtab).2 = none) ∧
    (((wInp.commitStatus = TxnStatus.unchanged ∨
       wInp.commitStatus = TxnStatus.success) →
       (∃ blocks, (do_nbctl wInp [wCmdGood]).result = DoResult.ok blocks) ∧
       (∀ (i : Nat) (h : i < [wCmdGood].length),
         (([wCmdGood].get ⟨i, h⟩).post).isSome = true →
         Event.postPhase i ∈ (do_nbctl wInp [wCmdGood]).events)) ∧
     (¬(wInp.commitStatus = TxnStatus.unchanged ∨
        wInp.commitStatus = TxnStatus.success) →
       ∀ i : Nat, Event.postPhase i ∉ (do_nbctl wInp [wCmdGood]).events) ∧
     (∀ blocks, (do_nbctl wInp [wCmdGood]).result = DoResult.ok blocks →
       wInp.commitStatus = TxnStatus.unchanged ∨
       wInp.commitStatus = TxnStatus.success) ∧
     (wInp.commitStatus = TxnStatus.tryAgain →
       ∃ cs, (do_nbctl wInp [wCmdGood]).result = DoResult.retry cs) ∧
     (∀ cs, (do_nbctl wInp [wCmdGood]).result = DoResult.retry cs →
       wInp.commitStatus = TxnStatus.tryAgain) ∧
     (wInp.commitStatus = TxnStatus.error →
       (do_nbctl wInp [wCmdGood]).result =
         DoResult.fatal (FatalKind.txnError wInp.commitError)) ∧
     (wInp.commitStatus = TxnStatus.aborted →
       (do_nbctl wInp [wCmdGood]).result =
         DoResult.fatal FatalKind.txnAborted) ∧
     (wInp.commitStatus = TxnStatus.notLocked →
       (do_nbctl wInp [wCmdGood]).result = DoResult.fatal FatalKind.notLocked) ∧
     ((wInp.commitStatus = TxnStatus.uncommitted ∨
       wInp.commitStatus = TxnStatus.incomplete) →
       (do_nbctl wInp [wCmdGood]).result =
         DoResult.fatal FatalKind.notReached)) :=
  ⟨rfl, rfl, claim_C7 wInp [wCmdGood] rfl rfl⟩
